import Mathlib

/-!
Verification of the zai-scrape email scraper (`zaiscrape.py`).

The development shallowly embeds the scraping core of the program:

* a model of the parts of Python's `urllib.parse` the program calls
  (`urlsplit`, `urlparse`, `urlunsplit`, `urlunparse`, `urljoin`), translated
  from the CPython implementation (`Lib/urllib/parse.py`);
* a model of the email regular expression search
  (`re.findall` of `[a-zA-Z0-9._%+-]+@[a-zA-Z0-9.-]+\.[a-zA-Z]{2,}`);
* the `EmailScraper` class: `_is_valid_url`, `_find_emails_on_page`,
  `_crawl_page`, `start_scraping`, and the seed normalization performed by
  the UI's `start_extraction`, together with `display_results`.

Strings are Lean `String`s, processed through their underlying `List Char`.
Python `set`s are modelled as duplicate-free lists kept in insertion order;
`set.pop()` (which removes an arbitrary element) is modelled by an explicit
selection oracle `choose`.  The network is an oracle
`fetch : String → FetchOutcome`; an HTML document is abstracted by the text
that `soup.get_text()` returns together with the list of `href` attributes
that `soup.find_all('a', href=True)` yields, in document order.  The
externally writable `is_scraping` flag is an oracle `stop : Nat → Bool`
giving the value observed at each iteration of the while loop.  The two UI
callbacks are modelled as an event trace.
-/

namespace ZaiScrape

/-! ## Character-list utilities -/

/-- Split a list at the first occurrence of `sep`:
`splitOnFirst sep l = some (a, b)` iff `l = a ++ sep :: b` with `sep ∉ a`.
Models Python's `str.find(sep)` / `str.split(sep, 1)` combination. -/
def splitOnFirst (sep : Char) : List Char → Option (List Char × List Char)
  | [] => none
  | c :: cs =>
    if c = sep then some ([], cs)
    else
      match splitOnFirst sep cs with
      | some (a, b) => some (c :: a, b)
      | none => none

/-- Split a list at the last occurrence of `sep`:
`splitOnLast sep l = some (a, b)` iff `l = a ++ sep :: b` with `sep ∉ b`.
Models Python's `str.rfind` / `str.rpartition`. -/
def splitOnLast (sep : Char) (l : List Char) : Option (List Char × List Char) :=
  match splitOnFirst sep l.reverse with
  | some (a, b) => some (b.reverse, a.reverse)
  | none => none

/-- Python's `str.split(sep)` for a one-character separator: the result is
never empty, and empty fields are kept (`"".split('/') = ['']`). -/
def splitOnChar (sep : Char) : List Char → List (List Char)
  | [] => [[]]
  | c :: cs =>
    if c = sep then [] :: splitOnChar sep cs
    else
      match splitOnChar sep cs with
      | h :: t => (c :: h) :: t
      | [] => [[c]]

/-- Python's `sep.join(parts)` for a one-character separator. -/
def joinWith (sep : Char) : List (List Char) → List Char
  | [] => []
  | [a] => a
  | a :: b :: t => a ++ sep :: joinWith sep (b :: t)

/-! ## Model of `urllib.parse`

Translated from CPython's `Lib/urllib/parse.py` (3.11).  Deviations, none
of which is exercised by the program on the inputs the claims are about:
the NFKC netloc check (`_checknetloc`), which only rejects certain
non-ASCII netlocs, is omitted, and `_check_bracketed_host` (full IPv6/IPv4
address validation of a bracketed host, added in 3.11) is omitted, so a
bracketed host is accepted whenever its brackets are balanced, as in
CPython before 3.11.  A `ValueError` raised by the library ("Invalid IPv6
URL", on unbalanced brackets in the netloc) is modelled by `none`. -/

/-- The characters `urlsplit` strips from the URL first
(`_UNSAFE_URL_BYTES_TO_REMOVE = ["\t", "\r", "\n"]`). -/
def isUnsafeUrlChar (c : Char) : Bool :=
  c = '\t' || c = '\r' || c = '\n'

/-- `_WHATWG_C0_CONTROL_OR_SPACE`: the C0 control characters and the space,
stripped from the left of the URL and from both ends of the default scheme. -/
def isC0ControlOrSpace (c : Char) : Bool :=
  c.toNat ≤ 0x20

/-- `scheme_chars` of `urllib.parse`: letters, digits, and `+`, `-`, `.`. -/
def schemeChar (c : Char) : Bool :=
  c.isAlpha || c.isDigit || c = '+' || c = '-' || c = '.'

/-- The characters that terminate the network-location component
(`_splitnetloc` looks for `/`, `?` and `#`). -/
def netlocDelim (c : Char) : Bool :=
  c = '/' || c = '?' || c = '#'

/-- Result of `urlsplit`: scheme, netloc, path, query, fragment. -/
structure SplitResult where
  scheme : String
  netloc : String
  path : String
  query : String
  fragment : String
deriving DecidableEq, Repr

/-- Model of `urllib.parse.urlsplit(url, scheme, allow_fragments=True)`.
`defaultScheme` is the `scheme` argument, used when the URL carries none.
Returns `none` when CPython raises `ValueError("Invalid IPv6 URL")`. -/
def urlsplit (url defaultScheme : String) : Option SplitResult :=
  let u0 := (url.data.dropWhile isC0ControlOrSpace).filter (fun c => !isUnsafeUrlChar c)
  let d0 := (((defaultScheme.data.dropWhile isC0ControlOrSpace).reverse.dropWhile
      isC0ControlOrSpace).reverse).filter (fun c => !isUnsafeUrlChar c)
  -- scheme detection: `i = url.find(':')`, `i > 0`, first char an ASCII
  -- letter, every char of `url[:i]` in `scheme_chars`; the detected scheme
  -- is lowercased.
  let (scheme, rest) :=
    match splitOnFirst ':' u0 with
    | some (bef, aft) =>
      match bef with
      | [] => (d0, u0)
      | c :: cs =>
        if c.isAlpha && (c :: cs).all schemeChar then
          ((c :: cs).map Char.toLower, aft)
        else (d0, u0)
    | none => (d0, u0)
  -- netloc: present iff the remainder starts with `//`.
  let (netloc, rest2) :=
    match rest with
    | '/' :: '/' :: r =>
      (r.takeWhile (fun c => !netlocDelim c), r.dropWhile (fun c => !netlocDelim c))
    | r => ([], r)
  if (netloc.contains '[' && !netloc.contains ']')
      || (netloc.contains ']' && !netloc.contains '[') then
    none
  else
    -- fragment, then query
    let (rest3, fragment) :=
      match splitOnFirst '#' rest2 with
      | some (a, b) => (a, b)
      | none => (rest2, [])
    let (path, query) :=
      match splitOnFirst '?' rest3 with
      | some (a, b) => (a, b)
      | none => (rest3, [])
    some ⟨String.mk scheme, String.mk netloc, String.mk path,
          String.mk query, String.mk fragment⟩

/-- Model of `urllib.parse._splitparams`: split the `;params` suffix of the
last path segment off the path. -/
def splitparams (p : List Char) : List Char × List Char :=
  if p.contains '/' then
    match splitOnLast '/' p with
    | some (bef, aft) =>
      match splitOnFirst ';' aft with
      | some (x, y) => (bef ++ '/' :: x, y)
      | none => (p, [])
    | none => (p, [])
  else
    match splitOnFirst ';' p with
    | some (x, y) => (x, y)
    | none => (p, [])

/-- Result of `urlparse`: scheme, netloc, path, params, query, fragment. -/
structure ParseResult where
  scheme : String
  netloc : String
  path : String
  params : String
  query : String
  fragment : String
deriving DecidableEq, Repr

/-- `urllib.parse.uses_params` (CPython 3.11). -/
def uses_params : List String :=
  ["", "ftp", "hdl", "prospero", "http", "imap", "https", "shttp", "rtsp",
   "rtsps", "rtspu", "sip", "sips", "mms", "sftp", "tel"]

/-- Model of `urllib.parse.urlparse(url, scheme, allow_fragments=True)`. -/
def urlparse (url defaultScheme : String) : Option ParseResult := do
  let s ← urlsplit url defaultScheme
  let (p, params) :=
    if uses_params.contains s.scheme && s.path.data.contains ';' then
      splitparams s.path.data
    else (s.path.data, [])
  pure ⟨s.scheme, s.netloc, String.mk p, String.mk params, s.query, s.fragment⟩

/-- Python's `str.startswith`, evaluated on the underlying character lists. -/
def strStartsWith (s pre : String) : Bool :=
  pre.data.isPrefixOf s.data

/-- `urllib.parse.uses_netloc` (CPython 3.11). -/
def uses_netloc : List String :=
  ["", "ftp", "http", "gopher", "nntp", "telnet", "imap", "wais", "file",
   "mms", "https", "shttp", "snews", "prospero", "rtsp", "rtsps", "rtspu",
   "rsync", "svn", "svn+ssh", "sftp", "nfs", "git", "git+ssh", "ws", "wss"]

/-- Model of `urllib.parse.urlunsplit` (CPython 3.11: the `//` is emitted
when a netloc is present, or when the scheme uses one and the path does not
already begin with `//`). -/
def urlunsplit (scheme netloc path query fragment : String) : String :=
  let url :=
    if netloc != ""
        || (scheme != "" && uses_netloc.contains scheme && !strStartsWith path "//") then
      let p := if path != "" && !strStartsWith path "/" then "/" ++ path else path
      "//" ++ netloc ++ p
    else path
  let url := if scheme != "" then scheme ++ ":" ++ url else url
  let url := if query != "" then url ++ "?" ++ query else url
  if fragment != "" then url ++ "#" ++ fragment else url

/-- Model of `urllib.parse.urlunparse`. -/
def urlunparse (scheme netloc path params query fragment : String) : String :=
  let p := if params != "" then path ++ ";" ++ params else path
  urlunsplit scheme netloc p query fragment

/-- `urllib.parse.uses_relative` (CPython 3.11). -/
def uses_relative : List String :=
  ["", "ftp", "http", "gopher", "nntp", "imap", "wais", "file", "https",
   "shttp", "mms", "prospero", "rtsp", "rtsps", "rtspu", "sftp", "svn",
   "svn+ssh", "ws", "wss"]

/-- The `resolved_path` accumulation loop of `urljoin`: `..` pops the
accumulator (ignoring `IndexError`), `.` is dropped, everything else is
appended. -/
def resolveSegs (acc : List (List Char)) : List (List Char) → List (List Char)
  | [] => acc
  | s :: rest =>
    if s = ['.', '.'] then resolveSegs acc.dropLast rest
    else if s = ['.'] then resolveSegs acc rest
    else resolveSegs (acc ++ [s]) rest

/-- The `segments[1:-1] = filter(None, segments[1:-1])` step of `urljoin`:
drop empty segments, keeping the first and last elements. -/
def filterMiddle (l : List (List Char)) : List (List Char) :=
  match l with
  | [] => []
  | [a] => [a]
  | a :: b :: t =>
    a :: (((b :: t).dropLast.filter (fun s => !s.isEmpty)) ++ [(b :: t).getLastD []])

/-- Model of `urllib.parse.urljoin(base, url)`.  Returns `none` when the
library would raise (`Invalid IPv6 URL` from `urlsplit`). -/
def urljoin (base url : String) : Option String :=
  if base = "" then some url
  else if url = "" then some base
  else do
    let b ← urlparse base ""
    let u ← urlparse url b.scheme
    if u.scheme != b.scheme || !uses_relative.contains u.scheme then
      pure url
    else if uses_netloc.contains u.scheme && u.netloc != "" then
      pure (urlunparse u.scheme u.netloc u.path u.params u.query u.fragment)
    else
      let netloc := if uses_netloc.contains u.scheme then b.netloc else u.netloc
      if u.path = "" && u.params = "" then
        let query := if u.query = "" then b.query else u.query
        pure (urlunparse u.scheme netloc b.path b.params query u.fragment)
      else
        let bparts0 := splitOnChar '/' b.path.data
        let bparts := if bparts0.getLastD [] = ([] : List Char) then bparts0
                      else bparts0.dropLast
        let segments :=
          if strStartsWith u.path "/" then splitOnChar '/' u.path.data
          else filterMiddle (bparts ++ splitOnChar '/' u.path.data)
        let resolved0 := resolveSegs [] segments
        let lastSeg := segments.getLastD []
        let resolved :=
          if lastSeg = ['.', '.'] || lastSeg = ['.'] then resolved0 ++ [[]]
          else resolved0
        let joined := joinWith '/' resolved
        let finalPath := if joined = ([] : List Char) then ['/'] else joined
        pure (urlunparse u.scheme netloc (String.mk finalPath) u.params
                u.query u.fragment)

/-- Model of the `hostname` property of a parse result: the part of the
netloc after the last `@`, without the port, brackets removed for a
bracketed host, lowercased. -/
def urlHostname (netloc : String) : String :=
  let hostinfo :=
    match splitOnLast '@' netloc.data with
    | some (_, aft) => aft
    | none => netloc.data
  let host :=
    if hostinfo.contains '[' then
      ((hostinfo.dropWhile (fun c => c ≠ '[')).drop 1).takeWhile (fun c => c ≠ ']')
    else hostinfo.takeWhile (fun c => c ≠ ':')
  String.mk (host.map Char.toLower)

/-! ## Model of the email regular expression

`zaiscrape.py` line 41: `r'[a-zA-Z0-9._%+-]+@[a-zA-Z0-9.-]+\.[a-zA-Z]{2,}'`,
searched with `re.findall` over the page text.  `re.findall` scans left to
right, matching at the leftmost possible position and resuming after the
end of each (non-overlapping) match; the quantifiers are greedy with
backtracking. -/

/-- The local-part character class `[a-zA-Z0-9._%+-]`. -/
def isLocalChar (c : Char) : Bool :=
  c.isAlpha || c.isDigit || c = '.' || c = '_' || c = '%' || c = '+' || c = '-'

/-- The domain character class `[a-zA-Z0-9.-]`. -/
def isDomainChar (c : Char) : Bool :=
  c.isAlpha || c.isDigit || c = '.' || c = '-'

/-- One backtracking attempt for the domain part: consume `k` domain
characters with `[a-zA-Z0-9.-]+`, then require `\.` and at least two letters
for `[a-zA-Z]{2,}` (greedy).  Returns the total matched length after `@`. -/
def domainAttempt (cs : List Char) (k : Nat) : Option Nat :=
  if 1 ≤ k && cs.getD k ' ' = '.' && k < cs.length then
    let tld := (cs.drop (k + 1)).takeWhile Char.isAlpha
    if 2 ≤ tld.length then some (k + 1 + tld.length) else none
  else none

/-- Backtracking search: try the greediest split first (`k` domain
characters, `k` descending to 1). -/
def domainSearch (cs : List Char) : Nat → Option Nat
  | 0 => none
  | k + 1 =>
    match domainAttempt cs (k + 1) with
    | some len => some len
    | none => domainSearch cs (k + 1 - 1)

/-- Try to match the email pattern at the head of `cs`; on success return
the matched characters and the remainder.  The local part is the maximal
run of local characters (a shorter run would be followed by a local
character, never by `@`, so backtracking it cannot succeed). -/
def matchEmailAt (cs : List Char) : Option (List Char × List Char) :=
  let loc := cs.takeWhile isLocalChar
  if loc.isEmpty then none
  else
    match cs.drop loc.length with
    | '@' :: dRest =>
      let n := (dRest.takeWhile isDomainChar).length
      match domainSearch dRest n with
      | some len => some (loc ++ '@' :: dRest.take len, dRest.drop len)
      | none => none
    | _ => none

/-- The `re.findall` scan; `fuel` bounds the recursion and is instantiated
with the text length, which suffices because every match consumes at least
one character. -/
def findEmailsAux : Nat → List Char → List String
  | 0, _ => []
  | _, [] => []
  | fuel + 1, c :: cs =>
    match matchEmailAt (c :: cs) with
    | some (m, rest) => String.mk m :: findEmailsAux fuel rest
    | none => findEmailsAux fuel cs

/-- Model of `_find_emails_on_page` (lines 38-44): all regex matches in the
page text, in order.  The argument stands for `soup.get_text()`. -/
def find_emails_on_page (text : String) : List String :=
  findEmailsAux text.data.length text.data

/-! ## The scraper -/

/-- What the program observes of a fetched, parsed document: the plain text
`soup.get_text()` yields and the `href` attributes of `soup.find_all('a',
href=True)`, in document order. -/
structure Page where
  text : String
  hrefs : List String
deriving DecidableEq, Repr

/-- Outcome of `requests.get(url, timeout=5, ...)`: either a transport-level
exception (connection error, timeout, too many redirects, ...) carrying its
message, or a response with final status code, reason phrase and parsed
document. -/
inductive FetchOutcome where
  | transportError (msg : String)
  | response (code : Nat) (reason : String) (page : Page)
deriving DecidableEq, Repr

/-- One observable callback invocation: `status_callback(msg)` or
`result_callback(emails)`. -/
inductive Event where
  | status (msg : String)
  | complete (emails : List String)
deriving DecidableEq, Repr

/-- The mutable state of an `EmailScraper` instance (lines 16-25).  The
three Python sets are duplicate-free lists in insertion order. -/
structure ScraperState where
  base_url : String
  domain : String
  emails_found : List String
  visited_urls : List String
  urls_to_visit : List String
  is_scraping : Bool
  max_pages : Nat
deriving DecidableEq, Repr

/-- `EmailScraper.__init__(base_url, ...)`: `domain = urlparse(base_url).netloc`,
empty email and visited sets, frontier `{base_url}`, `is_scraping = True`,
`max_pages = 50`.  A `ValueError` from `urlparse` would propagate out of the
constructor; this is `none`. -/
def EmailScraper_init (base_url : String) : Option ScraperState := do
  let p ← urlparse base_url ""
  pure { base_url := base_url
         domain := p.netloc
         emails_found := []
         visited_urls := []
         urls_to_visit := [base_url]
         is_scraping := true
         max_pages := 50 }

/-- `_is_valid_url` (lines 27-36): same netloc as `self.domain`, scheme
`http` or `https`, not already visited; any exception (only `urlparse` can
raise here) yields `False`. -/
def is_valid_url (domain : String) (visited : List String) (url : String) : Bool :=
  match urlparse url "" with
  | none => false
  | some p =>
    let is_same_domain := p.netloc == domain
    let is_http_or_https := p.scheme == "http" || p.scheme == "https"
    let is_not_visited := !visited.contains url
    is_same_domain && is_http_or_https && is_not_visited

/-- The message of the `requests.HTTPError` that `raise_for_status` raises:
`"{code} Client Error: {reason} for url: {url}"` for 4xx,
`"{code} Server Error: {reason} for url: {url}"` for 5xx. -/
def http_error_text (code : Nat) (reason url : String) : String :=
  if code < 500 then
    toString code ++ " Client Error: " ++ reason ++ " for url: " ++ url
  else
    toString code ++ " Server Error: " ++ reason ++ " for url: " ++ url

/-- The email loop of `_crawl_page` (lines 57-60): for each match, if it is
not already in `emails_found`, add it and emit `"Found Email: {email}"`. -/
def add_emails (found : List String) : List String → List String × List Event
  | [] => (found, [])
  | e :: rest =>
    if found.contains e then add_emails found rest
    else
      let r := add_emails (found ++ [e]) rest
      (r.1, Event.status ("Found Email: " ++ e) :: r.2)

/-- The link loop of `_crawl_page` (lines 63-66): resolve each `href`
against `self.base_url` with `urljoin`, and add the result to the frontier
when `_is_valid_url` accepts it (set-insertion: a present element is not
duplicated).  A `ValueError` raised by `urljoin` escapes the `for` loop and
is caught by the generic handler at line 70, producing one
`"An unexpected error occurred: ..."` status; links before the failing one
are kept, the rest are lost. -/
def add_links (base domain : String) (visited : List String)
    (frontier : List String) : List String → List String × List Event
  | [] => (frontier, [])
  | href :: rest =>
    match urljoin base href with
    | none =>
      (frontier, [Event.status "An unexpected error occurred: Invalid IPv6 URL"])
    | some absolute =>
      let frontier' :=
        if is_valid_url domain visited absolute then
          if frontier.contains absolute then frontier else frontier ++ [absolute]
        else frontier
      add_links base domain visited frontier' rest

/-- `_crawl_page` (lines 46-71): emit `"Visiting: {url}"`, fetch the page;
a `RequestException` (transport failure, or the `HTTPError` raised by
`raise_for_status` for a status in [400, 600)) produces one
`"Error visiting {url}: {e}"` status and nothing else; on success the email
loop runs first, then the link loop. -/
def crawl_page (fetch : String → FetchOutcome) (st : ScraperState)
    (url : String) : ScraperState × List Event :=
  let visiting := Event.status ("Visiting: " ++ url)
  match fetch url with
  | FetchOutcome.transportError msg =>
    (st, [visiting, Event.status ("Error visiting " ++ url ++ ": " ++ msg)])
  | FetchOutcome.response code reason page =>
    if 400 ≤ code && code < 600 then
      (st, [visiting,
            Event.status ("Error visiting " ++ url ++ ": "
              ++ http_error_text code reason url)])
    else
      let em := add_emails st.emails_found (find_emails_on_page page.text)
      let ln := add_links st.base_url st.domain st.visited_urls
                  st.urls_to_visit page.hrefs
      ({ st with emails_found := em.1, urls_to_visit := ln.1 },
       visiting :: (em.2 ++ ln.2))

/-- Result of repeatedly popping the frontier until an unvisited URL is
found: either the loop condition failed (frontier exhausted, or the stop
flag observed) leaving the given frontier, or an unvisited URL was popped
at iteration `iter`. -/
inductive DrainResult where
  | exhausted (frontier : List String)
  | found (current : String) (frontier : List String) (iter : Nat)
deriving DecidableEq, Repr

/-- The pop/revisit-skip part of the `start_scraping` while loop (lines
76-79): on each iteration the condition re-checks the frontier and the
`is_scraping` flag (whose observed value at iteration `n` is `!stop n`),
then `urls_to_visit.pop()` removes an arbitrary element — the one at index
`choose frontier % frontier.length` — and an already-visited URL is
skipped.  `fuel` is instantiated with the frontier length, which is exact
because each skip removes one element. -/
def drain (choose : List String → Nat) (stop : Nat → Bool)
    (visited : List String) : Nat → List String → Nat → DrainResult
  | _, [], _ => DrainResult.exhausted []
  | 0, f, _ => DrainResult.exhausted f
  | fuel + 1, f, iter =>
    if stop iter then DrainResult.exhausted f
    else
      let i := choose f % f.length
      let current := f.getD i ""
      let f' := f.eraseIdx i
      if visited.contains current then drain choose stop visited fuel f' (iter + 1)
      else DrainResult.found current f' iter

/-- The `start_scraping` while loop (lines 76-86).  `budget` is
`max_pages - pages_crawled`, so the `pages_crawled < max_pages` conjunct of
the condition is `budget > 0`; on loop exit `is_scraping` is set to
`False`, `"Scraping finished."` is emitted, and `result_callback` receives
`list(emails_found)` (the set's contents; the model lists them in insertion
order).  A freshly popped URL is added to `visited_urls` before
`_crawl_page` is invoked, and `pages_crawled` increments after it. -/
def scrape_loop (fetch : String → FetchOutcome) (choose : List String → Nat)
    (stop : Nat → Bool) :
    Nat → Nat → Nat → ScraperState → List Event → ScraperState × List Event × Nat
  | 0, pages, _, st, evs =>
    ({ st with is_scraping := false },
     evs ++ [Event.status "Scraping finished.", Event.complete st.emails_found],
     pages)
  | budget + 1, pages, iter, st, evs =>
    match drain choose stop st.visited_urls st.urls_to_visit.length
        st.urls_to_visit iter with
    | DrainResult.exhausted fr =>
      let st' := { st with urls_to_visit := fr, is_scraping := false }
      (st',
       evs ++ [Event.status "Scraping finished.", Event.complete st'.emails_found],
       pages)
    | DrainResult.found current fr iterPop =>
      let st1 := { st with urls_to_visit := fr,
                           visited_urls := st.visited_urls ++ [current] }
      let r := crawl_page fetch st1 current
      scrape_loop fetch choose stop budget (pages + 1) (iterPop + 1) r.1
        (evs ++ r.2)

/-- `start_scraping` (lines 73-86): run the loop from `pages_crawled = 0`.
Returns the final state, the full callback trace, and `pages_crawled`. -/
def start_scraping (fetch : String → FetchOutcome) (choose : List String → Nat)
    (stop : Nat → Bool) (st : ScraperState) : ScraperState × List Event × Nat :=
  scrape_loop fetch choose stop st.max_pages 0 0 st []

/-- The seed normalization of `start_extraction` (lines 142-146), applied to
the stripped entry text: prepend `https://` unless the string starts with
the literal `http://` or `https://`. -/
def normalize_seed (domain : String) : String :=
  if strStartsWith domain "http://" || strStartsWith domain "https://" then domain
  else "https://" ++ domain

/-- Python's `<=` on strings: code-point lexicographic order on the
character sequences. -/
def lexLe : List Char → List Char → Bool
  | [], _ => true
  | _ :: _, [] => false
  | x :: xs, y :: ys =>
    if x.toNat < y.toNat then true
    else if y.toNat < x.toNat then false
    else lexLe xs ys

/-- Python's `<=` on strings. -/
def pyStrLe (a b : String) : Bool :=
  lexLe a.data b.data

/-- Insert into a sorted list (the inner step of an ascending stable sort). -/
def insortStr (x : String) : List String → List String
  | [] => [x]
  | y :: ys => if pyStrLe x y then x :: y :: ys else y :: insortStr x ys

/-- Model of Python's `sorted` on strings: ascending stable insertion sort
by code-point order. -/
def pySorted : List String → List String
  | [] => []
  | x :: xs => insortStr x (pySorted xs)

/-- `display_results` (lines 177-187): the lines written to the results
textbox; the emails are rendered in `sorted` order. -/
def display_results (emails : List String) : List String :=
  if emails.isEmpty then ["No emails found."]
  else
    ("Found " ++ toString emails.length ++ " unique email(s):\n\n")
      :: (pySorted emails).map (fun e => e ++ "\n")

/-! ## Invariants and trace observations -/

/-- The session invariant: the three sets are duplicate-free, and no URL is
both visited and in the frontier. -/
def Inv (st : ScraperState) : Prop :=
  st.visited_urls.Nodup ∧ st.urls_to_visit.Nodup ∧ st.emails_found.Nodup ∧
    ∀ u, u ∈ st.visited_urls → u ∉ st.urls_to_visit

/-- Recognize a `"Visiting: ..."` status event. -/
def isVisitEvent : Event → Bool
  | Event.status m => "Visiting: ".data.isPrefixOf m.data
  | Event.complete _ => false

/-- Recognize a `"Found Email: ..."` status event. -/
def isFoundEvent : Event → Bool
  | Event.status m => "Found Email: ".data.isPrefixOf m.data
  | Event.complete _ => false

/-- Recognize a completion-callback event. -/
def isCompleteEvent : Event → Bool
  | Event.status _ => false
  | Event.complete _ => true

/-- Everything the loop guarantees from a state satisfying `Inv`: the
immutable fields are preserved, the invariant still holds, the visited list
and email list only grow, the trace extends by a block whose `Visiting`
events are exactly the newly visited URLs in order, whose `Found Email`
events are exactly the newly recorded addresses in order, and which ends
with the `"Scraping finished."` status followed by the single completion
event carrying the final email list; the page counter advances by the
number of newly visited URLs, which is at most `budget`. -/
def RunSpec (st : ScraperState) (pages budget : Nat) (evs : List Event)
    (out : ScraperState × List Event × Nat) : Prop :=
  out.1.base_url = st.base_url ∧ out.1.domain = st.domain ∧
  out.1.max_pages = st.max_pages ∧ Inv out.1 ∧
  ∃ newVis newEm delta,
    out.1.visited_urls = st.visited_urls ++ newVis ∧
    out.1.emails_found = st.emails_found ++ newEm ∧
    out.2.1 = evs ++ delta ∧
    delta.filter isVisitEvent
      = newVis.map (fun u => Event.status ("Visiting: " ++ u)) ∧
    delta.filter isFoundEvent
      = newEm.map (fun e => Event.status ("Found Email: " ++ e)) ∧
    delta.filter isCompleteEvent = [Event.complete out.1.emails_found] ∧
    (∃ pre, delta = pre ++ [Event.status "Scraping finished.",
                            Event.complete out.1.emails_found]) ∧
    out.2.2 = pages + newVis.length ∧
    newVis.length ≤ budget

/-! ## Concrete fixtures used to evaluate the model -/

/-- A pop-selection oracle that always removes the first element. -/
def chooseFirst : List String → Nat := fun _ => 0

/-- A stop oracle under which `stop_scraping` is never called. -/
def noStop : Nat → Bool := fun _ => false

/-- A network where every request fails with a transport error. -/
def offlineFetch : String → FetchOutcome :=
  fun _ => FetchOutcome.transportError "offline"

/-- The session state `EmailScraper.__init__("https://x.com", ...)` builds. -/
def initialState : ScraperState :=
  { base_url := "https://x.com", domain := "x.com", emails_found := [],
    visited_urls := [], urls_to_visit := ["https://x.com"],
    is_scraping := true, max_pages := 50 }

/-- The session state at the moment the crawl of `https://x.com/a/` starts:
the seed and that page have been dequeued and recorded as visited. -/
def stateAtSubpage : ScraperState :=
  { base_url := "https://x.com", domain := "x.com", emails_found := [],
    visited_urls := ["https://x.com", "https://x.com/a/"], urls_to_visit := [],
    is_scraping := true, max_pages := 50 }

/-- A network where the page `https://x.com/a/` carries one relative link
`b.html` and nothing else answers. -/
def fetchRelativeLink : String → FetchOutcome :=
  fun u =>
    if u = "https://x.com/a/" then
      FetchOutcome.response 200 "OK" { text := "", hrefs := ["b.html"] }
    else FetchOutcome.transportError "offline"

/-- A network where the seed page holds the two addresses `b@x.co` and
`a@x.co`, in that order, and no links. -/
def fetchTwoEmails : String → FetchOutcome :=
  fun u =>
    if u = "https://x.com" then
      FetchOutcome.response 200 "OK" { text := "b@x.co a@x.co", hrefs := [] }
    else FetchOutcome.transportError "offline"

/-- A network answering every request with `304 Not Modified` and a body
containing one address. -/
def fetchNotModified : String → FetchOutcome :=
  fun _ =>
    FetchOutcome.response 304 "Not Modified" { text := "a@b.co", hrefs := [] }

/-- The session state with only the seed visited and an empty frontier. -/
def stateSeedVisited : ScraperState :=
  { base_url := "https://x.com", domain := "x.com", emails_found := [],
    visited_urls := ["https://x.com"], urls_to_visit := [],
    is_scraping := true, max_pages := 50 }

/-! ## Basic lemmas about events and list membership -/

lemma contains_iff (l : List String) (a : String) : l.contains a = true ↔ a ∈ l := by
  simp [List.contains]

lemma contains_false_iff (l : List String) (a : String) :
    l.contains a = false ↔ a ∉ l := by
  rw [← Bool.not_eq_true, not_iff_not]
  exact contains_iff l a

lemma isPrefixOf_append_self (l m : List Char) : l.isPrefixOf (l ++ m) = true := by
  induction l with
  | nil => simp [List.isPrefixOf]
  | cons c cs ih => simp [List.isPrefixOf, ih]

lemma isPrefixOf_cons_ne (a b : Char) (l t : List Char) (h : (a == b) = false) :
    List.isPrefixOf (a :: l) (b :: t) = false := by
  simp only [List.isPrefixOf, h, Bool.false_and]

lemma isVisitEvent_visiting (u : String) :
    isVisitEvent (Event.status ("Visiting: " ++ u)) = true := by
  show "Visiting: ".data.isPrefixOf ("Visiting: ".data ++ u.data) = true
  exact isPrefixOf_append_self _ _

lemma isVisitEvent_found (e : String) :
    isVisitEvent (Event.status ("Found Email: " ++ e)) = false := by
  show List.isPrefixOf ('V' :: "isiting: ".data) ('F' :: ("ound Email: ".data ++ e.data)) = false
  exact isPrefixOf_cons_ne _ _ _ _ (by decide)

lemma isVisitEvent_error (url msg : String) :
    isVisitEvent (Event.status ("Error visiting " ++ url ++ ": " ++ msg)) = false := by
  show List.isPrefixOf ('V' :: "isiting: ".data)
    ('E' :: ("rror visiting ".data ++ url.data ++ ": ".data ++ msg.data)) = false
  exact isPrefixOf_cons_ne _ _ _ _ (by decide)

lemma isVisitEvent_unexpected :
    isVisitEvent (Event.status "An unexpected error occurred: Invalid IPv6 URL") = false := by
  decide

lemma isVisitEvent_finished : isVisitEvent (Event.status "Scraping finished.") = false := by
  decide

lemma isVisitEvent_complete (l : List String) : isVisitEvent (Event.complete l) = false := rfl

lemma isFoundEvent_found (e : String) :
    isFoundEvent (Event.status ("Found Email: " ++ e)) = true := by
  show "Found Email: ".data.isPrefixOf ("Found Email: ".data ++ e.data) = true
  exact isPrefixOf_append_self _ _

lemma isFoundEvent_visiting (u : String) :
    isFoundEvent (Event.status ("Visiting: " ++ u)) = false := by
  show List.isPrefixOf ('F' :: "ound Email: ".data) ('V' :: ("isiting: ".data ++ u.data)) = false
  exact isPrefixOf_cons_ne _ _ _ _ (by decide)

lemma isFoundEvent_error (url msg : String) :
    isFoundEvent (Event.status ("Error visiting " ++ url ++ ": " ++ msg)) = false := by
  show List.isPrefixOf ('F' :: "ound Email: ".data)
    ('E' :: ("rror visiting ".data ++ url.data ++ ": ".data ++ msg.data)) = false
  exact isPrefixOf_cons_ne _ _ _ _ (by decide)

lemma isFoundEvent_unexpected :
    isFoundEvent (Event.status "An unexpected error occurred: Invalid IPv6 URL") = false := by
  decide

lemma isFoundEvent_finished : isFoundEvent (Event.status "Scraping finished.") = false := by
  decide

lemma isFoundEvent_complete (l : List String) : isFoundEvent (Event.complete l) = false := rfl

lemma isCompleteEvent_status (m : String) : isCompleteEvent (Event.status m) = false := rfl

lemma isCompleteEvent_complete (l : List String) :
    isCompleteEvent (Event.complete l) = true := rfl

/-! ## Lemmas about the email loop -/

lemma add_emails_spec : ∀ (new found : List String), ∃ newEm : List String,
    (add_emails found new).1 = found ++ newEm ∧
    (add_emails found new).2
      = newEm.map (fun e => Event.status ("Found Email: " ++ e)) ∧
    (∀ e, e ∈ newEm → e ∉ found) ∧
    (found.Nodup → (found ++ newEm).Nodup)
  | [], found => ⟨[], by simp [add_emails]⟩
  | e :: rest, found => by
    by_cases h : found.contains e
    · obtain ⟨newEm, h1, h2, h3, h4⟩ := add_emails_spec rest found
      exact ⟨newEm, by simp only [add_emails, h, if_pos]; exact ⟨h1, h2, h3, h4⟩⟩
    · obtain ⟨newEm, h1, h2, h3, h4⟩ := add_emails_spec rest (found ++ [e])
      have hne : e ∉ found := by
        rw [← contains_false_iff]; exact Bool.of_not_eq_true h
      refine ⟨e :: newEm, ?_, ?_, ?_, ?_⟩
      · simp only [add_emails, h, if_neg, Bool.false_eq_true, not_false_iff]
        rw [h1]; simp
      · simp only [add_emails, h, if_neg, Bool.false_eq_true, not_false_iff]
        rw [h2]; simp
      · intro x hx
        rcases List.mem_cons.mp hx with rfl | hx
        · exact hne
        · intro hxf; exact h3 x hx (List.mem_append_left _ hxf)
      · intro hnd
        have : (found ++ [e]).Nodup := by
          rw [List.nodup_append]
          exact ⟨hnd, List.nodup_singleton e, by simpa using hne⟩
        have := h4 this
        simpa [List.append_assoc] using this

/-! ## Lemmas about the link loop -/

lemma add_links_mono : ∀ (hrefs : List String) (base domain : String)
    (visited frontier : List String) (a : String), a ∈ frontier →
    a ∈ (add_links base domain visited frontier hrefs).1
  | [], _, _, _, _, _, ha => ha
  | href :: rest, base, domain, visited, frontier, a, ha => by
    simp only [add_links]
    cases hj : urljoin base href with
    | none => exact ha
    | some absolute =>
      apply add_links_mono rest
      by_cases hv : is_valid_url domain visited absolute = true
      · rw [if_pos hv]
        by_cases hc : frontier.contains absolute = true
        · rw [if_pos hc]; exact ha
        · rw [if_neg hc]; exact List.mem_append_left _ ha
      · rw [if_neg hv]; exact ha

lemma add_links_spec : ∀ (hrefs : List String) (base domain : String)
    (visited frontier : List String), ∃ newL : List String,
    (add_links base domain visited frontier hrefs).1 = frontier ++ newL ∧
    (∀ a, a ∈ newL → is_valid_url domain visited a = true ∧ a ∉ frontier ∧
      ∃ href, href ∈ hrefs ∧ urljoin base href = some a) ∧
    (frontier.Nodup → (frontier ++ newL).Nodup) ∧
    (∀ ev, ev ∈ (add_links base domain visited frontier hrefs).2 →
      ev = Event.status "An unexpected error occurred: Invalid IPv6 URL")
  | [], base, domain, visited, frontier =>
    ⟨[], by simp [add_links]⟩
  | href :: rest, base, domain, visited, frontier => by
    simp only [add_links]
    cases hj : urljoin base href with
    | none =>
      refine ⟨[], by simp, by simp, by simp, ?_⟩
      intro ev hev
      have : ev ∈ [Event.status "An unexpected error occurred: Invalid IPv6 URL"] := hev
      simpa using this
    | some absolute =>
      dsimp only
      by_cases hv : is_valid_url domain visited absolute = true
      · by_cases hc : frontier.contains absolute = true
        · rw [if_pos hv, if_pos hc]
          obtain ⟨newL, h1, h2, h3, h4⟩ := add_links_spec rest base domain visited frontier
          refine ⟨newL, h1, ?_, h3, h4⟩
          intro a ha
          obtain ⟨hva, hfa, hr, hrm, hru⟩ := h2 a ha
          exact ⟨hva, hfa, hr, List.mem_cons_of_mem _ hrm, hru⟩
        · rw [if_pos hv, if_neg hc]
          have hnm : absolute ∉ frontier := by
            rw [← contains_false_iff]; exact Bool.of_not_eq_true hc
          obtain ⟨newL, h1, h2, h3, h4⟩ :=
            add_links_spec rest base domain visited (frontier ++ [absolute])
          refine ⟨absolute :: newL, ?_, ?_, ?_, h4⟩
          · rw [h1]; simp
          · intro a ha
            rcases List.mem_cons.mp ha with rfl | ha
            · exact ⟨hv, hnm, href, List.mem_cons_self _ _, hj⟩
            · obtain ⟨hva, hfa, hr, hrm, hru⟩ := h2 a ha
              refine ⟨hva, fun hf => hfa (List.mem_append_left _ hf),
                hr, List.mem_cons_of_mem _ hrm, hru⟩
          · intro hnd
            have hnd2 : (frontier ++ [absolute]).Nodup := by
              rw [List.nodup_append]
              exact ⟨hnd, List.nodup_singleton _, by simpa using hnm⟩
            have := h3 hnd2
            simpa [List.append_assoc] using this
      · rw [if_neg hv]
        obtain ⟨newL, h1, h2, h3, h4⟩ := add_links_spec rest base domain visited frontier
        refine ⟨newL, h1, ?_, h3, h4⟩
        intro a ha
        obtain ⟨hva, hfa, hr, hrm, hru⟩ := h2 a ha
        exact ⟨hva, hfa, hr, List.mem_cons_of_mem _ hrm, hru⟩

/-! ## Lemmas about `crawl_page` -/

lemma crawl_page_spec (fetch : String → FetchOutcome) (st : ScraperState)
    (url : String) :
    (crawl_page fetch st url).1.base_url = st.base_url ∧
    (crawl_page fetch st url).1.domain = st.domain ∧
    (crawl_page fetch st url).1.max_pages = st.max_pages ∧
    (crawl_page fetch st url).1.visited_urls = st.visited_urls ∧
    (crawl_page fetch st url).1.is_scraping = st.is_scraping ∧
    (∃ newEm : List String,
      (crawl_page fetch st url).1.emails_found = st.emails_found ++ newEm ∧
      (st.emails_found.Nodup → (crawl_page fetch st url).1.emails_found.Nodup) ∧
      (crawl_page fetch st url).2.filter isFoundEvent
        = newEm.map (fun e => Event.status ("Found Email: " ++ e))) ∧
    (st.urls_to_visit.Nodup → (crawl_page fetch st url).1.urls_to_visit.Nodup) ∧
    (∀ a, a ∈ (crawl_page fetch st url).1.urls_to_visit →
      a ∈ st.urls_to_visit ∨ is_valid_url st.domain st.visited_urls a = true) ∧
    (crawl_page fetch st url).2.filter isVisitEvent
      = [Event.status ("Visiting: " ++ url)] ∧
    (crawl_page fetch st url).2.filter isCompleteEvent = [] := by
  unfold crawl_page
  cases hf : fetch url with
  | transportError msg =>
    dsimp only
    refine ⟨rfl, rfl, rfl, rfl, rfl, ⟨[], by simp, fun h => by simpa using h, ?_⟩,
      fun h => h, fun a ha => Or.inl ha, ?_, ?_⟩
    · simp [List.filter, isFoundEvent_visiting, isFoundEvent_error]
    · simp [List.filter, isVisitEvent_visiting, isVisitEvent_error]
    · simp [List.filter, isCompleteEvent_status]
  | response code reason page =>
    dsimp only
    by_cases hcode : (400 ≤ code && code < 600) = true
    · rw [if_pos hcode]
      refine ⟨rfl, rfl, rfl, rfl, rfl, ⟨[], by simp, fun h => by simpa using h, ?_⟩,
        fun h => h, fun a ha => Or.inl ha, ?_, ?_⟩
      · simp [List.filter, isFoundEvent_visiting, isFoundEvent_error]
      · simp [List.filter, isVisitEvent_visiting, isVisitEvent_error]
      · simp [List.filter, isCompleteEvent_status]
    · rw [if_neg hcode]
      dsimp only
      obtain ⟨newEm, he1, he2, he3, he4⟩ :=
        add_emails_spec (find_emails_on_page page.text) st.emails_found
      obtain ⟨newL, hl1, hl2, hl3, hl4⟩ :=
        add_links_spec page.hrefs st.base_url st.domain st.visited_urls
          st.urls_to_visit
      have hLnoVisit : ∀ ev ∈ (add_links st.base_url st.domain st.visited_urls
          st.urls_to_visit page.hrefs).2, isVisitEvent ev = false := by
        intro ev hev
        rw [hl4 ev hev]; exact isVisitEvent_unexpected
      have hLnoFound : ∀ ev ∈ (add_links st.base_url st.domain st.visited_urls
          st.urls_to_visit page.hrefs).2, isFoundEvent ev = false := by
        intro ev hev
        rw [hl4 ev hev]; exact isFoundEvent_unexpected
      have hEnoVisit : ∀ ev ∈ (add_emails st.emails_found
          (find_emails_on_page page.text)).2, isVisitEvent ev = false := by
        intro ev hev
        rw [he2] at hev
        obtain ⟨e, _, rfl⟩ := List.mem_map.mp hev
        exact isVisitEvent_found e
      have hEallFound : ∀ ev ∈ (add_emails st.emails_found
          (find_emails_on_page page.text)).2, isFoundEvent ev = true := by
        intro ev hev
        rw [he2] at hev
        obtain ⟨e, _, rfl⟩ := List.mem_map.mp hev
        exact isFoundEvent_found e
      refine ⟨rfl, rfl, rfl, rfl, rfl, ⟨newEm, he1, ?_, ?_⟩, ?_, ?_, ?_, ?_⟩
      · intro h; rw [he1]; exact he4 h
      · show ((Event.status ("Visiting: " ++ url) :: _).filter isFoundEvent) = _
        rw [List.filter_cons_of_neg (by simp [isFoundEvent_visiting]),
          List.filter_append,
          List.filter_eq_self.mpr hEallFound,
          List.filter_eq_nil_iff.mpr (by simpa using hLnoFound), he2]
        simp
      · intro h; rw [hl1]; exact hl3 h
      · intro a ha
        rw [hl1] at ha
        rcases List.mem_append.mp ha with ha | ha
        · exact Or.inl ha
        · exact Or.inr (hl2 a ha).1
      · show ((Event.status ("Visiting: " ++ url) :: _).filter isVisitEvent) = _
        rw [List.filter_cons_of_pos (by simp [isVisitEvent_visiting]),
          List.filter_append,
          List.filter_eq_nil_iff.mpr (by simpa using hEnoVisit),
          List.filter_eq_nil_iff.mpr (by simpa using hLnoVisit)]
        simp
      · show ((Event.status ("Visiting: " ++ url) :: _).filter isCompleteEvent) = _
        rw [List.filter_cons_of_neg (by simp [isCompleteEvent_status]),
          List.filter_append]
        rw [List.filter_eq_nil_iff.mpr ?_, List.filter_eq_nil_iff.mpr ?_]
        · rfl
        · intro ev hev
          rw [hl4 ev hev]; simp [isCompleteEvent_status]
        · intro ev hev
          rw [he2] at hev
          obtain ⟨e, _, rfl⟩ := List.mem_map.mp hev
          simp [isCompleteEvent_status]

/-! ## Lemmas about `drain` -/

lemma drain_found_spec (choose : List String → Nat) (stop : Nat → Bool)
    (visited : List String) : ∀ (fuel : Nat) (f : List String) (iter : Nat),
    fuel = f.length → f.Nodup →
    ∀ cur f' it,
      drain choose stop visited fuel f iter = DrainResult.found cur f' it →
      cur ∈ f ∧ cur ∉ visited ∧ f'.Sublist f ∧ cur ∉ f' ∧ f'.Nodup
  | fuel, [], iter => by
    intro _ _ cur f' it h
    cases fuel <;> simp [drain] at h
  | 0, x :: xs, iter => by
    intro hlen
    simp at hlen
  | fuel + 1, x :: xs, iter => by
    intro hlen hnd cur f' it h
    rw [drain.eq_def] at h
    dsimp only at h
    by_cases hs : stop iter = true
    · rw [if_pos hs] at h; cases h
    · rw [if_neg hs] at h
      set f := x :: xs with hfdef
      have hflen : 0 < f.length := by simp [hfdef]
      set i := choose f % f.length with hidef
      have hi : i < f.length := Nat.mod_lt _ hflen
      have hget : f.getD i "" = f[i] := List.getD_eq_getElem f "" hi
      have hdecomp : f.take i ++ f[i] :: f.drop (i + 1) = f := by
        rw [List.getElem_cons_drop, List.take_append_drop]
      have herase : f.eraseIdx i = f.take i ++ f.drop (i + 1) :=
        List.eraseIdx_eq_take_drop_succ f i
      by_cases hc : visited.contains (f.getD i "") = true
      · rw [if_pos hc] at h
        have hlen' : fuel = (f.eraseIdx i).length := by
          rw [List.length_eraseIdx, if_pos hi, hfdef]
          simpa [hfdef] using hlen
        have hnd' : (f.eraseIdx i).Nodup :=
          (List.eraseIdx_sublist f i).nodup hnd
        obtain ⟨h1, h2, h3, h4, h5⟩ :=
          drain_found_spec choose stop visited fuel (f.eraseIdx i) (iter + 1)
            hlen' hnd' cur f' it h
        exact ⟨(List.eraseIdx_sublist f i).mem h1, h2,
          h3.trans (List.eraseIdx_sublist f i), h4, h5⟩
      · rw [if_neg hc] at h
        cases h
        refine ⟨hget ▸ List.getElem_mem hi, ?_, List.eraseIdx_sublist f i, ?_, ?_⟩
        · rw [← contains_false_iff]
          exact Bool.of_not_eq_true hc
        · rw [hget, herase]
          intro hmem
          have hnd2 := hnd
          rw [← hdecomp, List.nodup_append] at hnd2
          rcases List.mem_append.mp hmem with hmem | hmem
          · exact hnd2.2.2 hmem (List.mem_cons_self _ _)
          · exact (List.nodup_cons.mp hnd2.2.1).1 hmem
        · exact (List.eraseIdx_sublist f i).nodup hnd
  termination_by fuel => fuel

lemma drain_exhausted_spec (choose : List String → Nat) (stop : Nat → Bool)
    (visited : List String) : ∀ (fuel : Nat) (f : List String) (iter : Nat),
    ∀ fr, drain choose stop visited fuel f iter = DrainResult.exhausted fr →
      fr.Sublist f
  | fuel, [], iter => by
    intro fr h
    cases fuel <;>
    · simp only [drain] at h
      cases h
      exact List.nil_sublist _
  | 0, x :: xs, iter => by
    intro fr h
    rw [drain.eq_def] at h
    dsimp only at h
    cases h
    exact List.Sublist.refl _
  | fuel + 1, x :: xs, iter => by
    intro fr h
    rw [drain.eq_def] at h
    dsimp only at h
    by_cases hs : stop iter = true
    · rw [if_pos hs] at h
      cases h
      exact List.Sublist.refl _
    · rw [if_neg hs] at h
      set f := x :: xs with hfdef
      by_cases hc : visited.contains (f.getD (choose f % f.length) "") = true
      · rw [if_pos hc] at h
        exact (drain_exhausted_spec choose stop visited fuel _ (iter + 1) fr h).trans
          (List.eraseIdx_sublist f _)
      · rw [if_neg hc] at h
        cases h
  termination_by fuel => fuel

lemma drain_exhausted_nostop (choose : List String → Nat) (stop : Nat → Bool)
    (visited : List String) (hstop : ∀ n, stop n = false) :
    ∀ (fuel : Nat) (f : List String) (iter : Nat), fuel = f.length →
    ∀ fr, drain choose stop visited fuel f iter = DrainResult.exhausted fr →
      fr = []
  | fuel, [], iter => by
    intro _ fr h
    cases fuel <;> simpa [drain] using h
  | 0, x :: xs, iter => by
    intro hlen
    simp at hlen
  | fuel + 1, x :: xs, iter => by
    intro hlen fr h
    rw [drain.eq_def] at h
    dsimp only at h
    rw [if_neg (by simp [hstop iter])] at h
    set f := x :: xs with hfdef
    have hflen : 0 < f.length := by simp [hfdef]
    have hi : choose f % f.length < f.length := Nat.mod_lt _ hflen
    by_cases hc : visited.contains (f.getD (choose f % f.length) "") = true
    · rw [if_pos hc] at h
      have hlen' : fuel = (f.eraseIdx (choose f % f.length)).length := by
        rw [List.length_eraseIdx, if_pos hi, hfdef]
        simpa [hfdef] using hlen
      exact drain_exhausted_nostop choose stop visited hstop fuel _ (iter + 1) hlen' fr h
    · rw [if_neg hc] at h
      cases h
  termination_by fuel => fuel

/-! ## Lemmas about `is_valid_url` and `EmailScraper_init` -/

lemma is_valid_url_iff (domain : String) (visited : List String) (url : String) :
    is_valid_url domain visited url = true ↔
    ∃ p, urlparse url "" = some p ∧ p.netloc = domain ∧
      (p.scheme = "http" ∨ p.scheme = "https") ∧ url ∉ visited := by
  unfold is_valid_url
  cases hp : urlparse url "" with
  | none => simp
  | some p =>
    dsimp only
    constructor
    · intro h
      rw [Bool.and_eq_true, Bool.and_eq_true] at h
      obtain ⟨⟨h1, h2⟩, h3⟩ := h
      refine ⟨p, rfl, by simpa using h1, ?_, ?_⟩
      · rcases Bool.or_eq_true_iff.mp h2 with h2 | h2
        · exact Or.inl (by simpa using h2)
        · exact Or.inr (by simpa using h2)
      · rw [Bool.not_eq_true'] at h3
        exact (contains_false_iff _ _).mp h3
    · rintro ⟨p', hp', hnet, hscheme, hvis⟩
      cases hp'
      rw [Bool.and_eq_true, Bool.and_eq_true]
      refine ⟨⟨by simpa using hnet, ?_⟩, ?_⟩
      · rcases hscheme with h | h
        · exact Bool.or_eq_true_iff.mpr (Or.inl (by simpa using h))
        · exact Bool.or_eq_true_iff.mpr (Or.inr (by simpa using h))
      · rw [Bool.not_eq_true']
        exact (contains_false_iff _ _).mpr hvis

lemma is_valid_url_not_visited (domain : String) (visited : List String)
    (url : String) (h : is_valid_url domain visited url = true) : url ∉ visited := by
  obtain ⟨p, _, _, _, hv⟩ := (is_valid_url_iff domain visited url).mp h
  exact hv

lemma is_valid_url_netloc (domain : String) (visited : List String)
    (url : String) (p : ParseResult) (hp : urlparse url "" = some p)
    (hne : p.netloc ≠ domain) : is_valid_url domain visited url = false := by
  cases hval : is_valid_url domain visited url
  · rfl
  · exfalso
    obtain ⟨p', hp', hnet, _, _⟩ := (is_valid_url_iff domain visited url).mp hval
    rw [hp] at hp'
    cases hp'
    exact hne hnet

lemma init_spec (seed : String) (st0 : ScraperState)
    (h : EmailScraper_init seed = some st0) :
    st0.base_url = seed ∧ st0.emails_found = [] ∧ st0.visited_urls = [] ∧
    st0.urls_to_visit = [seed] ∧ st0.is_scraping = true ∧ st0.max_pages = 50 ∧
    Inv st0 ∧ ∃ p, urlparse seed "" = some p ∧ st0.domain = p.netloc := by
  unfold EmailScraper_init at h
  cases hp : urlparse seed "" with
  | none => rw [hp] at h; cases h
  | some p =>
    rw [hp] at h
    cases h
    refine ⟨rfl, rfl, rfl, rfl, rfl, rfl, ?_, p, rfl, rfl⟩
    refine ⟨List.nodup_nil, List.nodup_singleton _, List.nodup_nil, ?_⟩
    intro u hu
    simp at hu

/-! ## The master loop lemma -/

lemma filter_tail_events (X : List String) :
    [Event.status "Scraping finished.", Event.complete X].filter isVisitEvent = [] ∧
    [Event.status "Scraping finished.", Event.complete X].filter isFoundEvent = [] ∧
    [Event.status "Scraping finished.",
      Event.complete X].filter isCompleteEvent = [Event.complete X] := by
  refine ⟨?_, ?_, ?_⟩ <;>
    simp [List.filter_cons, isVisitEvent_finished, isVisitEvent_complete,
      isFoundEvent_finished, isFoundEvent_complete, isCompleteEvent_status,
      isCompleteEvent_complete]

lemma scrape_loop_spec (fetch : String → FetchOutcome)
    (choose : List String → Nat) (stop : Nat → Bool) :
    ∀ (budget pages iter : Nat) (st : ScraperState) (evs : List Event),
    Inv st →
    RunSpec st pages budget evs (scrape_loop fetch choose stop budget pages iter st evs) := by
  intro budget
  induction budget with
  | zero =>
    intro pages iter st evs hInv
    rw [scrape_loop]
    refine ⟨rfl, rfl, rfl, hInv, [], [],
      [Event.status "Scraping finished.", Event.complete st.emails_found],
      by simp, by simp, rfl, ?_, ?_, ?_, ⟨[], by simp⟩, by simp, by simp⟩
    · simpa using (filter_tail_events st.emails_found).1
    · simpa using (filter_tail_events st.emails_found).2.1
    · simpa using (filter_tail_events st.emails_found).2.2
  | succ b ih =>
    intro pages iter st evs hInv
    rw [scrape_loop]
    cases hd : drain choose stop st.visited_urls st.urls_to_visit.length
        st.urls_to_visit iter with
    | exhausted fr =>
      dsimp only
      have hsub : fr.Sublist st.urls_to_visit :=
        drain_exhausted_spec choose stop st.visited_urls _ _ _ fr hd
      obtain ⟨hv, hf, he, hdisj⟩ := hInv
      refine ⟨rfl, rfl, rfl, ⟨hv, hsub.nodup hf, he, ?_⟩, [], [],
        [Event.status "Scraping finished.", Event.complete st.emails_found],
        by simp, by simp, rfl, ?_, ?_, ?_, ⟨[], by simp⟩, by simp, by simp⟩
      · intro u hu hmem
        exact hdisj u hu (hsub.mem hmem)
      · simpa using (filter_tail_events st.emails_found).1
      · simpa using (filter_tail_events st.emails_found).2.1
      · simpa using (filter_tail_events st.emails_found).2.2
    | found cur fr iterPop =>
      dsimp only
      obtain ⟨hv, hf, he, hdisj⟩ := hInv
      obtain ⟨hcurF, hcurV, hsub, hcurNot, hfrNd⟩ :=
        drain_found_spec choose stop st.visited_urls _ _ _ rfl hf cur fr iterPop hd
      set st1 : ScraperState :=
        { st with urls_to_visit := fr,
                  visited_urls := st.visited_urls ++ [cur] } with hst1
      have hInv1 : Inv st1 := by
        refine ⟨?_, hfrNd, he, ?_⟩
        · rw [List.nodup_append]
          exact ⟨hv, List.nodup_singleton _, by simpa using hcurV⟩
        · intro u hu hmem
          rcases List.mem_append.mp hu with hu | hu
          · exact hdisj u hu (hsub.mem hmem)
          · rw [List.mem_singleton] at hu
            exact hcurNot (hu ▸ hmem)
      obtain ⟨hb, hdom, hmax, hvis, hscr, ⟨newEm1, hem1, hemnd1, hfFound⟩,
        hfrNd1, hfrMem1, hfVisit, hfComplete⟩ := crawl_page_spec fetch st1 cur
      have hst1em : st1.emails_found = st.emails_found := rfl
      have hInv2 : Inv (crawl_page fetch st1 cur).1 := by
        refine ⟨?_, hfrNd1 hInv1.2.1, ?_, ?_⟩
        · rw [hvis]; exact hInv1.1
        · exact hemnd1 (hst1em ▸ he)
        · intro u hu hmem
          rw [hvis] at hu
          rcases hfrMem1 u hmem with hmem' | hval
          · exact hInv1.2.2.2 u hu hmem'
          · exact is_valid_url_not_visited _ _ _ hval hu
      obtain ⟨ib, idom, imax, iInv, newVis', newEm', delta', ivis, iem, ievs,
        ifV, ifF, ifC, ⟨pre', ipre⟩, ipages, ilen⟩ :=
        ih (pages + 1) (iterPop + 1) (crawl_page fetch st1 cur).1
          (evs ++ (crawl_page fetch st1 cur).2) hInv2
      refine ⟨ib.trans hb, idom.trans hdom, imax.trans hmax, iInv,
        cur :: newVis', newEm1 ++ newEm',
        (crawl_page fetch st1 cur).2 ++ delta', ?_, ?_, ?_, ?_, ?_, ?_, ?_, ?_, ?_⟩
      · rw [ivis, hvis]
        show _ = st.visited_urls ++ ([cur] ++ newVis')
        rw [← List.append_assoc]
      · rw [iem, hem1, hst1em, List.append_assoc]
      · rw [ievs, List.append_assoc]
      · rw [List.filter_append, ifV, hfVisit]
        rfl
      · rw [List.filter_append, ifF, hfFound, ← List.map_append]
      · rw [List.filter_append, ifC, hfComplete]
        rfl
      · exact ⟨(crawl_page fetch st1 cur).2 ++ pre', by rw [ipre, List.append_assoc]⟩
      · rw [ipages]
        simp only [List.length_cons]
        omega
      · simp only [List.length_cons]
        omega

lemma scrape_loop_nostop (fetch : String → FetchOutcome)
    (choose : List String → Nat) :
    ∀ (budget pages iter : Nat) (st : ScraperState) (evs : List Event),
    (scrape_loop fetch choose (fun _ => false) budget pages iter st evs).2.2
      = pages + budget ∨
    (scrape_loop fetch choose (fun _ => false) budget pages iter st
      evs).1.urls_to_visit = [] := by
  intro budget
  induction budget with
  | zero =>
    intro pages iter st evs
    rw [scrape_loop]
    exact Or.inl rfl
  | succ b ih =>
    intro pages iter st evs
    rw [scrape_loop]
    cases hd : drain choose (fun _ => false) st.visited_urls
        st.urls_to_visit.length st.urls_to_visit iter with
    | exhausted fr =>
      dsimp only
      right
      exact drain_exhausted_nostop choose (fun _ => false) st.visited_urls
        (fun _ => rfl) _ _ _ rfl fr hd
    | found cur fr iterPop =>
      dsimp only
      rcases ih (pages + 1) (iterPop + 1) _ _ with h | h
      · left
        rw [h]
        omega
      · right
        exact h

lemma add_links_mem : ∀ (hrefs : List String) (base domain : String)
    (visited frontier : List String) (href a : String),
    href ∈ hrefs → urljoin base href = some a →
    is_valid_url domain visited a = true →
    (∀ h2, h2 ∈ hrefs → (urljoin base h2).isSome) →
    a ∈ (add_links base domain visited frontier hrefs).1
  | [], _, _, _, _, _, _ => fun hmem _ _ _ => absurd hmem (List.not_mem_nil _)
  | h0 :: rest, base, domain, visited, frontier, href, a => by
    intro hmem hj hv hok
    simp only [add_links]
    cases hj0 : urljoin base h0 with
    | none =>
      have := hok h0 (List.mem_cons_self _ _)
      rw [hj0] at this
      cases this
    | some ab =>
      dsimp only
      rcases List.mem_cons.mp hmem with rfl | hmem'
      · have hab : ab = a := Option.some.inj (hj0.symm.trans hj)
        rw [hab]
        apply add_links_mono
        rw [if_pos (hab ▸ hv)]
        by_cases hc : frontier.contains a = true
        · rw [if_pos hc]
          exact (contains_iff _ _).mp hc
        · rw [if_neg hc]
          exact List.mem_append_right _ (List.mem_singleton_self a)
      · exact add_links_mem rest base domain visited _ href a hmem' hj hv
          (fun h2 hh2 => hok h2 (List.mem_cons_of_mem _ hh2))

/-- Instantiation of the loop lemma at a freshly constructed session. -/
lemma run_spec_init (seed : String) (st0 : ScraperState)
    (fetch : String → FetchOutcome) (choose : List String → Nat)
    (stop : Nat → Bool) (h : EmailScraper_init seed = some st0) :
    RunSpec st0 0 st0.max_pages [] (start_scraping fetch choose stop st0) := by
  obtain ⟨_, _, _, _, _, _, hInv, _⟩ := init_spec seed st0 h
  exact scrape_loop_spec fetch choose stop st0.max_pages 0 0 st0 [] hInv

/-! ## Lemmas about the sort used by `display_results` -/

lemma lexLe_total : ∀ a b : List Char, lexLe a b = true ∨ lexLe b a = true
  | [], _ => Or.inl rfl
  | _ :: _, [] => Or.inr rfl
  | x :: xs, y :: ys => by
    by_cases hxy : x.toNat < y.toNat
    · left
      simp [lexLe, hxy]
    · by_cases hyx : y.toNat < x.toNat
      · right
        simp [lexLe, hyx]
      · rcases lexLe_total xs ys with h | h
        · left
          simp [lexLe, hxy, hyx, h]
        · right
          simp [lexLe, hxy, hyx, h]

lemma lexLe_trans : ∀ a b c : List Char,
    lexLe a b = true → lexLe b c = true → lexLe a c = true
  | [], _, _ => by intro _ _; rfl
  | x :: xs, [], c => by intro h _; cases h
  | _ :: _, _ :: _, [] => by intro _ h; cases h
  | x :: xs, y :: ys, z :: zs => by
    intro h1 h2
    rw [lexLe] at h1 h2 ⊢
    by_cases hxy : x.toNat < y.toNat
    · by_cases hyz : y.toNat < z.toNat
      · rw [if_pos (Nat.lt_trans hxy hyz)]
      · rw [if_neg hyz] at h2
        by_cases hzy : z.toNat < y.toNat
        · rw [if_pos hzy] at h2
          cases h2
        · have hyz2 : y.toNat = z.toNat := Nat.le_antisymm
            (Nat.le_of_not_lt hzy) (Nat.le_of_not_lt hyz)
          rw [if_pos (hyz2 ▸ hxy)]
    · rw [if_neg hxy] at h1
      by_cases hyx : y.toNat < x.toNat
      · rw [if_pos hyx] at h1
        cases h1
      · have hxy2 : x.toNat = y.toNat := Nat.le_antisymm
          (Nat.le_of_not_lt hyx) (Nat.le_of_not_lt hxy)
        by_cases hyz : y.toNat < z.toNat
        · rw [if_pos (hxy2 ▸ hyz)]
        · rw [if_neg hyz] at h2
          by_cases hzy : z.toNat < y.toNat
          · rw [if_pos hzy] at h2
            cases h2
          · have hyz2 : y.toNat = z.toNat := Nat.le_antisymm
              (Nat.le_of_not_lt hzy) (Nat.le_of_not_lt hyz)
            have hxz : x.toNat = z.toNat := hxy2.trans hyz2
            rw [if_neg hyx] at h1
            rw [if_neg hzy] at h2
            rw [if_neg (by omega : ¬ x.toNat < z.toNat),
              if_neg (by omega : ¬ z.toNat < x.toNat)]
            exact lexLe_trans xs ys zs h1 h2

lemma pyStrLe_total (a b : String) : pyStrLe a b = true ∨ pyStrLe b a = true :=
  lexLe_total a.data b.data

lemma pyStrLe_trans (a b c : String) (h1 : pyStrLe a b = true)
    (h2 : pyStrLe b c = true) : pyStrLe a c = true :=
  lexLe_trans a.data b.data c.data h1 h2

lemma insortStr_perm (x : String) : ∀ l : List String,
    List.Perm (insortStr x l) (x :: l)
  | [] => List.Perm.refl _
  | y :: ys => by
    rw [insortStr]
    by_cases h : pyStrLe x y = true
    · rw [if_pos h]
    · rw [if_neg h]
      exact ((insortStr_perm x ys).cons y).trans (List.Perm.swap x y ys)

lemma pySorted_perm : ∀ l : List String, List.Perm (pySorted l) l
  | [] => List.Perm.refl _
  | x :: xs =>
    (insortStr_perm x (pySorted xs)).trans ((pySorted_perm xs).cons x)

lemma insortStr_sorted (x : String) : ∀ l : List String,
    List.Pairwise (fun a b => pyStrLe a b = true) l →
    List.Pairwise (fun a b => pyStrLe a b = true) (insortStr x l)
  | [], _ => by simp [insortStr]
  | y :: ys, h => by
    rw [insortStr]
    obtain ⟨hy, hys⟩ := List.pairwise_cons.mp h
    by_cases hxy : pyStrLe x y = true
    · rw [if_pos hxy]
      refine List.pairwise_cons.mpr ⟨?_, h⟩
      intro z hz
      rcases List.mem_cons.mp hz with rfl | hz
      · exact hxy
      · exact pyStrLe_trans x y z hxy (hy z hz)
    · rw [if_neg hxy]
      have hyx : pyStrLe y x = true :=
        (pyStrLe_total x y).resolve_left hxy
      refine List.pairwise_cons.mpr ⟨?_, insortStr_sorted x ys hys⟩
      intro z hz
      have hz2 := (insortStr_perm x ys).mem_iff.mp hz
      rcases List.mem_cons.mp hz2 with rfl | hz2
      · exact hyx
      · exact hy z hz2

lemma pySorted_sorted : ∀ l : List String,
    List.Pairwise (fun a b => pyStrLe a b = true) (pySorted l)
  | [] => List.Pairwise.nil
  | x :: xs => insortStr_sorted x (pySorted xs) (pySorted_sorted xs)

/-! ## The claims -/

/-- C1, counterexample: on the page `https://x.com/a/` (not the seed), the
relative link `b.html` is offered to admission as `https://x.com/b.html`
— resolved against the seed `https://x.com` — although resolving it against
the page it was found on yields `https://x.com/a/b.html`, a URL the
admission check would have accepted; so hyperlinks are not resolved against
the URL of the page on which they were found. -/
theorem c1_counterexample :
    (crawl_page fetchRelativeLink stateAtSubpage "https://x.com/a/").1.urls_to_visit
      = ["https://x.com/b.html"] ∧
    urljoin "https://x.com/a/" "b.html" = some "https://x.com/a/b.html" ∧
    is_valid_url "x.com" stateAtSubpage.visited_urls "https://x.com/a/b.html" = true ∧
    "https://x.com/a/b.html" ∉
      (crawl_page fetchRelativeLink stateAtSubpage "https://x.com/a/").1.urls_to_visit := by
  decide

/-- C1, amended: every hyperlink discovered on a successfully fetched page
is resolved to an absolute URL against the crawl session's seed URL
(`self.base_url`), not against the page on which it was found, before being
offered to the admission check: the frontier after a page is exactly what
the link loop produces from `urljoin base_url href`; every such resolved
URL that passes `_is_valid_url` is in the frontier afterwards (provided no
link on the page makes `urljoin` raise), and every frontier newcomer is the
`base_url`-resolution of some link of the page. -/
theorem c1_resolution_against_session_base :
    (∀ (fetch : String → FetchOutcome) (st : ScraperState) (url : String)
        (code : Nat) (reason : String) (page : Page),
      fetch url = FetchOutcome.response code reason page →
      (400 ≤ code && code < 600) = false →
      (crawl_page fetch st url).1.urls_to_visit
        = (add_links st.base_url st.domain st.visited_urls st.urls_to_visit
            page.hrefs).1) ∧
    (∀ (base domain : String) (visited frontier hrefs : List String)
        (href a : String),
      href ∈ hrefs → urljoin base href = some a →
      is_valid_url domain visited a = true →
      (∀ h2, h2 ∈ hrefs → (urljoin base h2).isSome) →
      a ∈ (add_links base domain visited frontier hrefs).1) ∧
    (∀ (base domain : String) (visited frontier hrefs : List String)
        (a : String),
      a ∈ (add_links base domain visited frontier hrefs).1 →
      a ∈ frontier ∨ ∃ href, href ∈ hrefs ∧ urljoin base href = some a) := by
  refine ⟨?_, ?_, ?_⟩
  · intro fetch st url code reason page hf hcode
    unfold crawl_page
    rw [hf]
    dsimp only
    rw [if_neg (by simp [hcode])]
  · intro base domain visited frontier hrefs href a hmem hj hv hok
    exact add_links_mem hrefs base domain visited frontier href a hmem hj hv hok
  · intro base domain visited frontier hrefs a ha
    obtain ⟨newL, h1, h2, _, _⟩ := add_links_spec hrefs base domain visited frontier
    rw [h1] at ha
    rcases List.mem_append.mp ha with ha | ha
    · exact Or.inl ha
    · obtain ⟨_, _, href, hm, hu⟩ := h2 a ha
      exact Or.inr ⟨href, hm, hu⟩

/-- C1, witness for the amended theorem at concrete inputs. -/
theorem c1_witness :
    (crawl_page fetchRelativeLink stateAtSubpage "https://x.com/a/").1.urls_to_visit
      = (add_links stateAtSubpage.base_url stateAtSubpage.domain
          stateAtSubpage.visited_urls stateAtSubpage.urls_to_visit
          ["b.html"]).1 ∧
    "https://x.com/a" ∈ (add_links "https://x.com" "x.com" [] [] ["/a"]).1 := by
  constructor
  · exact c1_resolution_against_session_base.1 fetchRelativeLink stateAtSubpage
      "https://x.com/a/" 200 "OK" { text := "", hrefs := ["b.html"] }
      (by decide) (by decide)
  · exact c1_resolution_against_session_base.2.1 "https://x.com" "x.com" [] []
      ["/a"] "/a" "https://x.com/a" (by decide) (by decide) (by decide) (by decide)

/-- C2: `_is_valid_url` accepts a candidate URL exactly when `urlparse`
succeeds on it and yields a netloc equal (as a string, with no subdomain or
www normalization) to the session's domain, a scheme that is `http` or
`https`, and the URL is not already in the visited set; an unparsable URL
is rejected by returning `false` (the exception is caught), and every URL
newly admitted to the frontier passed this check. -/
theorem c2_admit_only_if :
    (∀ (domain : String) (visited : List String) (url : String),
      is_valid_url domain visited url = true ↔
      ∃ p, urlparse url "" = some p ∧ p.netloc = domain ∧
        (p.scheme = "http" ∨ p.scheme = "https") ∧ url ∉ visited) ∧
    (∀ (domain : String) (visited : List String) (url : String),
      urlparse url "" = none → is_valid_url domain visited url = false) ∧
    (∀ (base domain : String) (visited frontier hrefs : List String)
        (a : String),
      a ∈ (add_links base domain visited frontier hrefs).1 →
      a ∈ frontier ∨ is_valid_url domain visited a = true) := by
  refine ⟨is_valid_url_iff, ?_, ?_⟩
  · intro domain visited url h
    unfold is_valid_url
    rw [h]
  · intro base domain visited frontier hrefs a ha
    obtain ⟨newL, h1, h2, _, _⟩ := add_links_spec hrefs base domain visited frontier
    rw [h1] at ha
    rcases List.mem_append.mp ha with ha | ha
    · exact Or.inl ha
    · exact Or.inr (h2 a ha).1

/-- C2, witness: the malformed URL `http://[::1` (the `ValueError` case of
`urlparse`) is rejected, not errored, and a concrete frontier newcomer
passed the admission check. -/
theorem c2_witness :
    is_valid_url "x.com" [] "http://[::1" = false ∧
    ("https://x.com/a" ∈ ([] : List String) ∨
      is_valid_url "x.com" [] "https://x.com/a" = true) := by
  constructor
  · exact c2_admit_only_if.2.1 "x.com" [] "http://[::1" (by decide)
  · exact c2_admit_only_if.2.2 "https://x.com" "x.com" [] [] ["/a"]
      "https://x.com/a" (by decide)

/-- C3: in any session started by `EmailScraper.__init__`, the final
visited set has no duplicates and is disjoint from the final frontier, and
the `"Visiting: ..."` status lines of the whole run — one emitted per
attempted fetch, at the moment the URL is dequeued and recorded as visited
— are exactly the visited URLs in order; hence a URL in the visited set is
never re-admitted and no URL is dequeued for fetching twice. -/
theorem c3_visited_once_and_disjoint (seed : String) (st0 : ScraperState)
    (fetch : String → FetchOutcome) (choose : List String → Nat)
    (stop : Nat → Bool) (h : EmailScraper_init seed = some st0) :
    (start_scraping fetch choose stop st0).1.visited_urls.Nodup ∧
    (∀ u, u ∈ (start_scraping fetch choose stop st0).1.visited_urls →
      u ∉ (start_scraping fetch choose stop st0).1.urls_to_visit) ∧
    (start_scraping fetch choose stop st0).2.1.filter isVisitEvent
      = (start_scraping fetch choose stop st0).1.visited_urls.map
          (fun u => Event.status ("Visiting: " ++ u)) := by
  obtain ⟨hb0, he0, hv0, hf0, hs0, hm0, hInv0, _⟩ := init_spec seed st0 h
  obtain ⟨rb, rd, rm, rInv, newVis, newEm, delta, rvis, rem, revs, rfV, rfF,
    rfC, _, rpages, rlen⟩ := run_spec_init seed st0 fetch choose stop h
  refine ⟨rInv.1, rInv.2.2.2, ?_⟩
  rw [revs, rvis, hv0]
  simpa using rfV

/-- C3, witness: the theorem applied to the session for `https://x.com`
with an all-failing network. -/
theorem c3_witness :
    (start_scraping offlineFetch chooseFirst noStop initialState).1.visited_urls.Nodup ∧
    (∀ u, u ∈ (start_scraping offlineFetch chooseFirst noStop initialState).1.visited_urls →
      u ∉ (start_scraping offlineFetch chooseFirst noStop initialState).1.urls_to_visit) ∧
    (start_scraping offlineFetch chooseFirst noStop initialState).2.1.filter isVisitEvent
      = (start_scraping offlineFetch chooseFirst noStop initialState).1.visited_urls.map
          (fun u => Event.status ("Visiting: " ++ u)) :=
  c3_visited_once_and_disjoint "https://x.com" initialState offlineFetch
    chooseFirst noStop (by decide)

/-- C4: a run never counts more than 50 visited pages (the budget set in
`__init__`), whatever the network, pop order and cancellations; and with no
cancellation, the loop exits only because the budget of exactly 50 pages is
reached or the frontier has emptied. -/
theorem c4_page_budget (seed : String) (st0 : ScraperState)
    (fetch : String → FetchOutcome) (choose : List String → Nat)
    (h : EmailScraper_init seed = some st0) :
    (∀ stop : Nat → Bool, (start_scraping fetch choose stop st0).2.2 ≤ 50) ∧
    ((start_scraping fetch choose (fun _ => false) st0).2.2 = 50 ∨
      (start_scraping fetch choose (fun _ => false) st0).1.urls_to_visit = []) := by
  obtain ⟨hb0, he0, hv0, hf0, hs0, hm0, hInv0, _⟩ := init_spec seed st0 h
  constructor
  · intro stop
    obtain ⟨_, _, _, _, newVis, newEm, delta, _, _, _, _, _, _, _, rpages, rlen⟩ :=
      run_spec_init seed st0 fetch choose stop h
    rw [rpages]
    simpa using le_trans rlen (le_of_eq hm0)
  · rcases scrape_loop_nostop fetch choose st0.max_pages 0 0 st0 [] with hh | hh
    · left
      show (scrape_loop fetch choose (fun _ => false) st0.max_pages 0 0 st0 []).2.2 = 50
      rw [hh, hm0]
    · right
      exact hh

/-- C4, witness: the theorem applied to the session for `https://x.com`
with an all-failing network and a concrete stop oracle. -/
theorem c4_witness :
    (start_scraping offlineFetch chooseFirst noStop initialState).2.2 ≤ 50 ∧
    ((start_scraping offlineFetch chooseFirst (fun _ => false) initialState).2.2 = 50 ∨
      (start_scraping offlineFetch chooseFirst
        (fun _ => false) initialState).1.urls_to_visit = []) :=
  ⟨(c4_page_budget "https://x.com" initialState offlineFetch chooseFirst
      (by decide)).1 noStop,
   (c4_page_budget "https://x.com" initialState offlineFetch chooseFirst
      (by decide)).2⟩

/-- C5: over any whole run, the final email set has no duplicates, and the
`"Found Email: ..."` status lines of the trace are exactly the accumulated
addresses in order of first occurrence — one line per distinct address, at
its first occurrence, however often it recurs. -/
theorem c5_email_dedup (seed : String) (st0 : ScraperState)
    (fetch : String → FetchOutcome) (choose : List String → Nat)
    (stop : Nat → Bool) (h : EmailScraper_init seed = some st0) :
    (start_scraping fetch choose stop st0).1.emails_found.Nodup ∧
    (start_scraping fetch choose stop st0).2.1.filter isFoundEvent
      = (start_scraping fetch choose stop st0).1.emails_found.map
          (fun e => Event.status ("Found Email: " ++ e)) := by
  obtain ⟨hb0, he0, hv0, hf0, hs0, hm0, hInv0, _⟩ := init_spec seed st0 h
  obtain ⟨rb, rd, rm, rInv, newVis, newEm, delta, rvis, rem, revs, rfV, rfF,
    rfC, _, rpages, rlen⟩ := run_spec_init seed st0 fetch choose stop h
  refine ⟨rInv.2.2.1, ?_⟩
  rw [revs, rem, he0]
  simpa using rfF

/-- C5, witness: the theorem applied to the session for `https://x.com`
whose seed page repeats an address. -/
theorem c5_witness :
    (start_scraping fetchTwoEmails chooseFirst noStop initialState).1.emails_found.Nodup ∧
    (start_scraping fetchTwoEmails chooseFirst noStop initialState).2.1.filter isFoundEvent
      = (start_scraping fetchTwoEmails chooseFirst noStop initialState).1.emails_found.map
          (fun e => Event.status ("Found Email: " ++ e)) :=
  c5_email_dedup "https://x.com" initialState fetchTwoEmails chooseFirst noStop
    (by decide)

/-- C6, counterexample: a fetch that completes with the non-2xx status
`304 Not Modified` does not produce an error status line — `raise_for_status`
only raises for statuses in [400, 600) — and the page still contributes its
emails: the claim's "non-2xx HTTP status" clause fails on the code. -/
theorem c6_counterexample :
    (crawl_page fetchNotModified stateSeedVisited "https://x.com").1.emails_found
      = ["a@b.co"] ∧
    (crawl_page fetchNotModified stateSeedVisited "https://x.com").2
      = [Event.status ("Visiting: " ++ "https://x.com"),
         Event.status ("Found Email: " ++ "a@b.co")] := by
  decide

/-- C6, amended: if fetching a target fails with a transport error or
completes with an HTTP status in the 400-599 range (the statuses
`raise_for_status` raises for), exactly one error status line — containing
the failing URL and error detail — follows the `"Visiting"` line, the page
contributes no emails and no frontier links (the state is unchanged), and
in every run the page counter still equals the number of dequeued pages
(failed ones included) and the run still delivers its completion callback,
so no single-page failure terminates the run. -/
theorem c6_page_failure_isolated :
    (∀ (fetch : String → FetchOutcome) (st : ScraperState) (url msg : String),
      fetch url = FetchOutcome.transportError msg →
      crawl_page fetch st url
        = (st, [Event.status ("Visiting: " ++ url),
                Event.status ("Error visiting " ++ url ++ ": " ++ msg)])) ∧
    (∀ (fetch : String → FetchOutcome) (st : ScraperState) (url : String)
        (code : Nat) (reason : String) (page : Page),
      fetch url = FetchOutcome.response code reason page →
      400 ≤ code → code < 600 →
      crawl_page fetch st url
        = (st, [Event.status ("Visiting: " ++ url),
                Event.status ("Error visiting " ++ url ++ ": "
                  ++ http_error_text code reason url)])) ∧
    (∀ (seed : String) (st0 : ScraperState) (fetch : String → FetchOutcome)
        (choose : List String → Nat) (stop : Nat → Bool),
      EmailScraper_init seed = some st0 →
      (start_scraping fetch choose stop st0).2.2
        = (start_scraping fetch choose stop st0).1.visited_urls.length ∧
      (start_scraping fetch choose stop st0).2.1.filter isCompleteEvent
        = [Event.complete (start_scraping fetch choose stop st0).1.emails_found]) := by
  refine ⟨?_, ?_, ?_⟩
  · intro fetch st url msg hf
    unfold crawl_page
    rw [hf]
  · intro fetch st url code reason page hf h1 h2
    unfold crawl_page
    rw [hf]
    dsimp only
    rw [if_pos (by rw [decide_eq_true h1, decide_eq_true h2]; rfl)]
  · intro seed st0 fetch choose stop h
    obtain ⟨hb0, he0, hv0, hf0, hs0, hm0, hInv0, _⟩ := init_spec seed st0 h
    obtain ⟨rb, rd, rm, rInv, newVis, newEm, delta, rvis, rem, revs, rfV, rfF,
      rfC, _, rpages, rlen⟩ := run_spec_init seed st0 fetch choose stop h
    constructor
    · rw [rpages, rvis, hv0]
      simp
    · rw [revs]
      simpa using rfC

/-- C6, witness for the amended theorem: a transport failure, an HTTP 500,
and a whole run against a dead network. -/
theorem c6_witness :
    crawl_page offlineFetch stateSeedVisited "https://y.com"
      = (stateSeedVisited,
         [Event.status ("Visiting: " ++ "https://y.com"),
          Event.status ("Error visiting " ++ "https://y.com" ++ ": " ++ "offline")]) ∧
    crawl_page (fun _ => FetchOutcome.response 500 "Internal Server Error"
        { text := "a@b.co", hrefs := [] }) stateSeedVisited "https://x.com/p"
      = (stateSeedVisited,
         [Event.status ("Visiting: " ++ "https://x.com/p"),
          Event.status ("Error visiting " ++ "https://x.com/p" ++ ": "
            ++ http_error_text 500 "Internal Server Error" "https://x.com/p")]) ∧
    (start_scraping offlineFetch chooseFirst noStop initialState).2.2
      = (start_scraping offlineFetch chooseFirst noStop initialState).1.visited_urls.length := by
  refine ⟨?_, ?_, ?_⟩
  · exact c6_page_failure_isolated.1 offlineFetch stateSeedVisited
      "https://y.com" "offline" (by decide)
  · exact c6_page_failure_isolated.2.1
      (fun _ => FetchOutcome.response 500 "Internal Server Error"
        { text := "a@b.co", hrefs := [] })
      stateSeedVisited "https://x.com/p" 500 "Internal Server Error"
      { text := "a@b.co", hrefs := [] } (by decide) (by decide) (by decide)
  · exact (c6_page_failure_isolated.2.2 "https://x.com" initialState
      offlineFetch chooseFirst noStop (by decide)).1

/-- C7: every run — whatever the network, pop order and cancellations, and
even if every fetch failed — ends its trace with the status
`"Scraping finished."` immediately followed by the completion callback, and
the completion callback fires exactly once in the whole run, carrying the
accumulated unique emails. -/
theorem c7_completion_exactly_once (seed : String) (st0 : ScraperState)
    (fetch : String → FetchOutcome) (choose : List String → Nat)
    (stop : Nat → Bool) (h : EmailScraper_init seed = some st0) :
    (∃ pre, (start_scraping fetch choose stop st0).2.1
      = pre ++ [Event.status "Scraping finished.",
                Event.complete (start_scraping fetch choose stop st0).1.emails_found]) ∧
    (start_scraping fetch choose stop st0).2.1.filter isCompleteEvent
      = [Event.complete (start_scraping fetch choose stop st0).1.emails_found] := by
  obtain ⟨rb, rd, rm, rInv, newVis, newEm, delta, rvis, rem, revs, rfV, rfF,
    rfC, ⟨pre, hpre⟩, rpages, rlen⟩ := run_spec_init seed st0 fetch choose stop h
  constructor
  · refine ⟨pre, ?_⟩
    rw [revs, hpre]
    simp
  · rw [revs]
    simpa using rfC

/-- C7, witness: the theorem applied to a run in which every single page
fetch failed. -/
theorem c7_witness :
    (∃ pre, (start_scraping offlineFetch chooseFirst noStop initialState).2.1
      = pre ++ [Event.status "Scraping finished.",
                Event.complete (start_scraping offlineFetch chooseFirst noStop
                  initialState).1.emails_found]) ∧
    (start_scraping offlineFetch chooseFirst noStop initialState).2.1.filter
        isCompleteEvent
      = [Event.complete (start_scraping offlineFetch chooseFirst noStop
          initialState).1.emails_found] :=
  c7_completion_exactly_once "https://x.com" initialState offlineFetch
    chooseFirst noStop (by decide)

/-- C8, counterexample: in the session for `https://x.com` whose seed page
holds `b@x.co` then `a@x.co`, the sequence delivered to the completion
callback at the end of the run is `["b@x.co", "a@x.co"]` — the accumulation
order — which is not sorted (`"b@x.co" ≤ "a@x.co"` fails); sorting only
happens later, in `display_results`. -/
theorem c8_counterexample :
    EmailScraper_init "https://x.com" = some initialState ∧
    (start_scraping fetchTwoEmails chooseFirst noStop initialState).2.1.filter
        isCompleteEvent
      = [Event.complete ["b@x.co", "a@x.co"]] ∧
    pyStrLe "b@x.co" "a@x.co" = false ∧
    ["b@x.co", "a@x.co"] ≠ pySorted ["b@x.co", "a@x.co"] := by
  decide

/-- C8, amended: the accumulated addresses are delivered exactly once, at
termination, through the completion callback, each distinct address once —
but as an unordered sequence (`list(set)`); it is the display layer
(`display_results`) that presents the addresses sorted: its output lists
`sorted(emails)`, a sorted permutation of the delivered sequence. -/
theorem c8_unordered_delivery_sorted_display (seed : String)
    (st0 : ScraperState) (fetch : String → FetchOutcome)
    (choose : List String → Nat) (stop : Nat → Bool)
    (h : EmailScraper_init seed = some st0) :
    (start_scraping fetch choose stop st0).2.1.filter isCompleteEvent
      = [Event.complete (start_scraping fetch choose stop st0).1.emails_found] ∧
    (start_scraping fetch choose stop st0).1.emails_found.Nodup ∧
    List.Pairwise (fun a b => pyStrLe a b = true)
      (pySorted (start_scraping fetch choose stop st0).1.emails_found) ∧
    List.Perm (pySorted (start_scraping fetch choose stop st0).1.emails_found)
      (start_scraping fetch choose stop st0).1.emails_found ∧
    ((start_scraping fetch choose stop st0).1.emails_found ≠ [] →
      display_results (start_scraping fetch choose stop st0).1.emails_found
        = ("Found "
            ++ toString (start_scraping fetch choose stop st0).1.emails_found.length
            ++ " unique email(s):\n\n")
          :: (pySorted (start_scraping fetch choose stop st0).1.emails_found).map
              (fun e => e ++ "\n")) := by
  obtain ⟨hb0, he0, hv0, hf0, hs0, hm0, hInv0, _⟩ := init_spec seed st0 h
  obtain ⟨rb, rd, rm, rInv, newVis, newEm, delta, rvis, rem, revs, rfV, rfF,
    rfC, _, rpages, rlen⟩ := run_spec_init seed st0 fetch choose stop h
  refine ⟨?_, rInv.2.2.1, pySorted_sorted _, pySorted_perm _, ?_⟩
  · rw [revs]
    simpa using rfC
  · intro hne
    unfold display_results
    rw [if_neg ?_]
    intro hE
    cases hcase : (start_scraping fetch choose stop st0).1.emails_found with
    | nil => exact hne hcase
    | cons x xs =>
      rw [hcase] at hE
      simp at hE

/-- C8, witness for the amended theorem: the run whose seed page holds two
addresses in reverse order. -/
theorem c8_witness :
    (start_scraping fetchTwoEmails chooseFirst noStop initialState).2.1.filter
        isCompleteEvent
      = [Event.complete (start_scraping fetchTwoEmails chooseFirst noStop
          initialState).1.emails_found] ∧
    ((start_scraping fetchTwoEmails chooseFirst noStop
        initialState).1.emails_found ≠ [] →
      display_results (start_scraping fetchTwoEmails chooseFirst noStop
          initialState).1.emails_found
        = ("Found "
            ++ toString (start_scraping fetchTwoEmails chooseFirst noStop
              initialState).1.emails_found.length
            ++ " unique email(s):\n\n")
          :: (pySorted (start_scraping fetchTwoEmails chooseFirst noStop
              initialState).1.emails_found).map (fun e => e ++ "\n")) :=
  ⟨(c8_unordered_delivery_sorted_display "https://x.com" initialState
      fetchTwoEmails chooseFirst noStop (by decide)).1,
   (c8_unordered_delivery_sorted_display "https://x.com" initialState
      fetchTwoEmails chooseFirst noStop (by decide)).2.2.2.2⟩

/-- C9, counterexample: the seed `HTTP://example.com` carries an http
scheme — `urlparse` reports scheme `http` — yet `start_extraction` does not
use it unchanged: the scheme test is a case-sensitive literal check for
`http://` / `https://`, so this seed is prefixed to
`https://HTTP://example.com`. -/
theorem c9_counterexample :
    urlparse "HTTP://example.com" ""
      = some { scheme := "http", netloc := "example.com", path := "",
               params := "", query := "", fragment := "" } ∧
    normalize_seed "HTTP://example.com" = "https://HTTP://example.com" ∧
    "https://HTTP://example.com" ≠ "HTTP://example.com" := by
  decide

/-- C9, amended: if the seed does not start with the literal (lowercase)
prefix `http://` or `https://`, the string `https://` is prepended before
crawling begins — so seed `example.com` is crawled as
`https://example.com` — and a seed starting with one of those two literal
prefixes is used unchanged. -/
theorem c9_seed_normalization :
    (∀ s : String, strStartsWith s "http://" = false →
      strStartsWith s "https://" = false →
      normalize_seed s = "https://" ++ s) ∧
    (∀ s : String, (strStartsWith s "http://" = true ∨
        strStartsWith s "https://" = true) →
      normalize_seed s = s) ∧
    normalize_seed "example.com" = "https://example.com" := by
  refine ⟨?_, ?_, by decide⟩
  · intro s h1 h2
    unfold normalize_seed
    rw [if_neg (by simp [h1, h2])]
  · intro s h
    unfold normalize_seed
    rcases h with h | h <;> rw [if_pos (by simp [h])]

/-- C9, witness for the amended theorem at concrete seeds. -/
theorem c9_witness :
    normalize_seed "example.com" = "https://" ++ "example.com" ∧
    normalize_seed "http://example.com" = "http://example.com" :=
  ⟨c9_seed_normalization.1 "example.com" (by decide) (by decide),
   c9_seed_normalization.2.1 "http://example.com" (Or.inl (by decide))⟩

/-- C10: domain scoping compares the candidate's full network-location
component with the session's (`urlparse(...).netloc` string equality), not
the hostname alone: any parsed candidate whose netloc differs from the
domain is rejected — even when its hostname equals the seed's, as with an
explicit port (`https://example.com:8080/x`) or embedded userinfo
(`https://user@example.com/x`) — and nothing enters the frontier without
passing this check. -/
theorem c10_netloc_scoping :
    (∀ (domain : String) (visited : List String) (url : String)
        (p : ParseResult),
      urlparse url "" = some p →
      urlHostname p.netloc = urlHostname domain →
      p.netloc ≠ domain →
      is_valid_url domain visited url = false) ∧
    urlparse "https://example.com:8080/x" ""
      = some { scheme := "https", netloc := "example.com:8080", path := "/x",
               params := "", query := "", fragment := "" } ∧
    urlHostname "example.com:8080" = urlHostname "example.com" ∧
    is_valid_url "example.com" [] "https://example.com:8080/x" = false ∧
    urlparse "https://user@example.com/x" ""
      = some { scheme := "https", netloc := "user@example.com", path := "/x",
               params := "", query := "", fragment := "" } ∧
    urlHostname "user@example.com" = urlHostname "example.com" ∧
    is_valid_url "example.com" [] "https://user@example.com/x" = false ∧
    (∀ (base domain : String) (visited frontier hrefs : List String)
        (a : String),
      a ∈ (add_links base domain visited frontier hrefs).1 →
      a ∈ frontier ∨ is_valid_url domain visited a = true) := by
  refine ⟨?_, by decide, by decide, by decide, by decide, by decide, by decide, ?_⟩
  · intro domain visited url p hp _ hne
    exact is_valid_url_netloc domain visited url p hp hne
  · intro base domain visited frontier hrefs a ha
    obtain ⟨newL, h1, h2, _, _⟩ := add_links_spec hrefs base domain visited frontier
    rw [h1] at ha
    rcases List.mem_append.mp ha with ha | ha
    · exact Or.inl ha
    · exact Or.inr (h2 a ha).1

/-- C10, witness: the general netloc-scoping rejection applied to the
explicit-port candidate. -/
theorem c10_witness :
    is_valid_url "example.com" [] "https://example.com:8080/x" = false :=
  c10_netloc_scoping.1 "example.com" [] "https://example.com:8080/x"
    { scheme := "https", netloc := "example.com:8080", path := "/x",
      params := "", query := "", fragment := "" }
    (by decide) (by decide) (by decide)

end ZaiScrape
